import Mathlib

/-!
Verification of the URL resolution / validation core of `defpath.py`
(a Mercurial extension manipulating `default` / `default-push` path settings).

The embedding is shallow:
* `urlparse` / `urlunparse` / `urljoin` model the Python 2 `urlparse` library
  (the URL-parts collaborator of spec section 4.1) restricted to URLs free of
  `?`, `#` and `;` components, which is the domain this program operates on;
  they follow the CPython 2.7 code (`urlsplit`, `urlunsplit`, `urljoin`).
* the network fetch plus HTML scan of `get_repo_root` is abstracted by an
  oracle `Fetch : String -> Option String` giving, for each fetched URL, the
  path the tag scanner would extract (the rss link `href` with `/rss-log`
  stripped), or `none` when no marker is found or an I/O error occurs; all
  theorems quantify over this oracle, so statements that hold for every
  oracle are independent of the network.
* string manipulation is done with structural list-of-char helpers so that
  every definition evaluates inside the kernel.
* `go` (the change planner) is a pure function returning `Except GoError GoOk`;
  a raised `error.Abort` becomes `GoError.abort`, the uncaught Python
  `IndexError` of `ps[1]` becomes `GoError.indexError`, and the in-memory
  config plus the deferred `todo` entry are returned explicitly.
-/

deriving instance DecidableEq for Except

namespace Defpath

/-! ## List-of-char string helpers (kernel-computable) -/

/-- Python `s.split(sep)` for a one-character separator, on char lists. -/
def splitCharAux (sep : Char) : List Char → List (List Char)
  | [] => [[]]
  | c :: cs =>
    match splitCharAux sep cs with
    | [] => [[]]
    | h :: t => if c = sep then [] :: h :: t else (c :: h) :: t

/-- Python `s.split(sep)` for a one-character separator. -/
def pySplitChar (sep : Char) (s : String) : List String :=
  (splitCharAux sep s.toList).map List.asString

/-- Python `sep.join(xs)`. -/
def pyJoin (sep : String) : List String → String
  | [] => ""
  | [x] => x
  | x :: y :: t => x ++ sep ++ pyJoin sep (y :: t)

/-- Python `s.rstrip("/")`: drop every trailing slash. -/
def pyRstripSlash (s : String) : String :=
  ((s.toList.reverse.dropWhile (fun c => c = '/')).reverse).asString

/-- Python `s.lower()` (ASCII). -/
def pyLower (s : String) : String :=
  (s.toList.map Char.toLower).asString

/-- Python `s.isupper()`: at least one cased character and no lowercase one
    (ASCII, as in the Python 2 byte strings the program handles). -/
def pyIsUpper (s : String) : Bool :=
  s.toList.any Char.isAlpha && s.toList.all (fun c => !c.isLower)

/-- Prefix of `s` of length `n` (Python `s[:n]`). -/
def pyTake (s : String) (n : Nat) : String :=
  (s.toList.take n).asString

/-- Remainder of `s` after its first `n` characters (Python `s[n:]`). -/
def pyDrop (s : String) (n : Nat) : String :=
  (s.toList.drop n).asString

/-! ## URL parts (model of the Python 2 `urlparse` module, spec section 4.1) -/

/-- Scheme / authority / path triple; `scheme = none` models Python `None`
    (the program never uses params, query or fragment: it parses with
    `allow_fragments=False` and rebuilds URLs with those slots empty). -/
structure URLParts where
  scheme : Option String
  netloc : String
  path   : String
deriving DecidableEq, Repr

/-- Characters allowed in a URL scheme (CPython `scheme_chars`). -/
def isSchemeChar (c : Char) : Bool :=
  c.isAlpha || c.isDigit || c = '+' || c = '-' || c = '.'

/-- Split a char list at its first colon: `some (before, after)`, or `none`
    when no colon occurs (the `url.find(':')` step of CPython `urlsplit`). -/
def colonSplit : List Char → Option (List Char × List Char)
  | [] => none
  | c :: cs =>
    if c = ':' then some ([], cs)
    else
      match colonSplit cs with
      | none => none
      | some pr => some (c :: pr.1, pr.2)

/-- Scheme-splitting step of CPython `urlsplit` (continued): a scheme is
    recognised when the part before the first colon is non-empty (`i > 0`),
    made of scheme characters only, and the remainder is not a bare port
    number. -/
def splitScheme (url : String) (dflt : Option String) : Option String × String :=
  match colonSplit url.toList with
  | none => (dflt, url)
  | some pr =>
    if !pr.1.isEmpty && pr.1.all isSchemeChar &&
        (pr.2.isEmpty || pr.2.any (fun c => !c.isDigit)) then
      (some (pyLower pr.1.asString), pr.2.asString)
    else (dflt, url)

/-- Netloc-splitting step of CPython `_splitnetloc`: after a leading `//`,
    the netloc extends to the next `/`, `?` or `#`. -/
def splitNetloc (s : String) : String × String :=
  if (s.toList.take 2) = ['/', '/'] then
    let after := s.toList.drop 2
    let nl := after.takeWhile (fun c => c ≠ '/' && c ≠ '?' && c ≠ '#')
    (nl.asString, (after.drop nl.length).asString)
  else ("", s)

/-- Model of `urlparse(url, dflt, False)` restricted to the scheme, netloc and
    path slots (no query / fragment / params in this program's URLs). -/
def urlparse (url : String) (dflt : Option String) : URLParts :=
  let sr := splitScheme url dflt
  let np := splitNetloc sr.2
  ⟨sr.1, np.1, np.2⟩

/-- Model of `urlunparse` (CPython `urlunsplit`) on scheme / netloc / path. -/
def urlunparse (u : URLParts) : String :=
  let url :=
    if u.netloc ≠ "" ∨ pyTake u.path 2 = "//" then
      "//" ++ u.netloc ++ (if u.path ≠ "" ∧ pyTake u.path 1 ≠ "/" then "/" ++ u.path else u.path)
    else u.path
  match u.scheme with
  | some s => if s ≠ "" then s ++ ":" ++ url else url
  | none => url

/-- CPython 2.7 `uses_relative` scheme list. -/
def uses_relative : List String :=
  ["ftp", "http", "gopher", "nntp", "imap", "wais", "file", "https", "shttp",
   "mms", "prospero", "rtsp", "rtspu", "", "sftp", "svn", "svn+ssh"]

/-- CPython 2.7 `uses_netloc` scheme list. -/
def uses_netloc : List String :=
  ["ftp", "http", "gopher", "nntp", "telnet", "imap", "wais", "file", "mms",
   "https", "shttp", "snews", "prospero", "rtsp", "rtspu", "rsync", "",
   "svn", "svn+ssh", "sftp", "nfs", "git", "git+ssh"]

/-- One deletion step of CPython `urljoin`'s `..` loop: index of the first
    inner segment equal to `..` whose predecessor is neither empty nor `..`. -/
def findDotDot (segs : List String) : Option Nat :=
  (List.range segs.length).find? (fun i =>
    decide (1 ≤ i) && decide (i + 1 < segs.length) &&
    (segs.getD i "" == "..") &&
    !(segs.getD (i - 1) "" == "") && !(segs.getD (i - 1) "" == ".."))

/-- Repeatedly delete `seg[i-1], seg[i]` pairs found by `findDotDot`; the fuel
    bounds the iteration count (each step removes two elements). -/
def dotDotLoop : Nat → List String → List String
  | 0, segs => segs
  | fuel + 1, segs =>
    match findDotDot segs with
    | some i => dotDotLoop fuel (segs.take (i - 1) ++ segs.drop (i + 1))
    | none => segs

/-- Relative-path merge of CPython `urljoin` (the `segments` computation with
    `.` and `..` elimination). -/
def joinSegments (bpath rpath : String) : String :=
  let segments := (pySplitChar '/' bpath).dropLast ++ pySplitChar '/' rpath
  let segments :=
    if segments.getLast? = some "." then segments.dropLast ++ [""] else segments
  let segments := segments.filter (fun s => s ≠ ".")
  let segments := dotDotLoop segments.length segments
  let segments :=
    if segments = ["", ".."] then ["", ""]
    else if 2 ≤ segments.length ∧ segments.getLast? = some ".." then
      segments.dropLast.dropLast ++ [""]
    else segments
  pyJoin "/" segments

/-- Model of CPython 2.7 `urljoin(base, url)` on query / fragment free URLs. -/
def urljoin (base url : String) : String :=
  if base = "" then url
  else if url = "" then base
  else
    let b := urlparse base (some "")
    let bscheme := b.scheme.getD ""
    let r := urlparse url (some bscheme)
    let scheme := r.scheme.getD ""
    if scheme ≠ bscheme ∨ ¬ uses_relative.contains scheme then url
    else if uses_netloc.contains scheme ∧ r.netloc ≠ "" then
      urlunparse ⟨some scheme, r.netloc, r.path⟩
    else
      let netloc := if uses_netloc.contains scheme then b.netloc else r.netloc
      if pyTake r.path 1 = "/" then urlunparse ⟨some scheme, netloc, r.path⟩
      else if r.path = "" then urlunparse ⟨some scheme, netloc, b.path⟩
      else urlunparse ⟨some scheme, netloc, joinSegments b.path r.path⟩

/-- Source `uhostname`: strip a leading `user@` (up to the last `@`, the regex
    `^.*@` being greedy) and a trailing `:port` from the netloc. -/
def uhostname (u : URLParts) : String :=
  let afterAt := ((u.netloc.toList.reverse.takeWhile (fun c => c ≠ '@')).reverse)
  (afterAt.takeWhile (fun c => c ≠ ':')).asString

/-! ## Repository prober and peer resolver -/

/-- Network / HTML-scanner oracle: for a fetched URL, the path the streaming
    tag scanner of `get_repo_root` would extract (the rss `link` `href` with
    the literal `/rss-log` removed), or `none` when no marker is found or an
    I/O error (connection failure, timeout) occurs.  A theorem quantifying
    over every `Fetch` is independent of the network. -/
abbrev Fetch : Type := String → Option String

/-- Source `get_repo_root`: local URLs (no scheme, or `file` scheme) are
    returned unchanged without consulting the oracle; otherwise the scanned
    path (when truthy) is substituted into the URL reparsed with default
    scheme `"http"` and the result reserialised. -/
def get_repo_root (fetch : Fetch) (url : String) : Option String :=
  let us := (urlparse url none).scheme.getD ""
  if us = "" ∨ us = "file" then some url
  else
    match fetch url with
    | none => none
    | some sp =>
      if sp = "" then none
      else
        let u := urlparse url (some "http")
        some (urlunparse ⟨u.scheme, u.netloc, sp⟩)

/-- Source `probe_repo`: truthiness of `rr and rr == url` (the reconstructed
    root must be truthy and textually identical to the URL under test). -/
def probe_repo (fetch : Fetch) (url : String) : Bool :=
  match get_repo_root fetch url with
  | none => false
  | some rr => (rr != "") && (rr == url)

/-- Source `find_repo`: probe the candidate; on failure fail at once when no
    secondary base is supplied (the CLI default is the empty string, which is
    falsy), else probe the fallback `urljoin(secondary, path-of-candidate)`;
    `Except.error` carries the `error.Abort` message.  The source's first
    line computes `get_repo_root(ui, url)` and discards the result; in this
    pure model that call has no observable effect and is omitted. -/
def find_repo (fetch : Fetch) (url : String) (secondary : String) : Except String String :=
  if probe_repo fetch url then .ok url
  else if secondary = "" then .error (url ++ ": Repository not found")
  else
    let url2 := urljoin secondary (urlparse url (some "http")).path
    if probe_repo fetch url2 then .ok url2
    else .error (url ++ ": Repository not found\n       " ++ url2 ++
      ": Repository not found either")

/-! ## Push URL deriver -/

/-- Authority computed by `new_push_url`: `user@host` when a CLI override or
    the configured `defpath.username` is non-empty (Python truthiness of the
    empty string), else the parsed netloc unchanged. -/
def pushAuthority (uiUsername : String) (u : URLParts) (user : String) : String :=
  let eff := if user = "" then uiUsername else user
  if eff ≠ "" then eff ++ "@" ++ uhostname u else u.netloc

/-- Source `new_push_url`; `uiUsername` models `ui.config("defpath",
    "username")` with `""` for an unset value; the result is `none` exactly
    when the Python code would die with `IndexError` on `ps[1]`. -/
def new_push_url (uiUsername : String) (url : String) (gated : Bool) (user : String) :
    Option String :=
  let u := urlparse url none
  let us := u.scheme.getD ""
  if us = "" ∨ us = "file" then some url
  else
    let h := pushAuthority uiUsername u user
    if gated then
      let ps := (pySplitChar '/' u.path).drop 1
      match ps.get? 1 with
      | none => none
      | some s1 =>
        let g := if pyIsUpper s1 then "-GATE" else "-gate"
        let p := "/" ++ ps.headD "" ++ "/" ++ s1 ++ g ++
          (if 2 < ps.length then "/" ++ pyJoin "/" (ps.drop 2) else "")
        some (urlunparse ⟨some "ssh", h, p⟩)
    else some (urlunparse ⟨some "ssh", h, u.path⟩)

/-! ## Config store (the collaborator of spec section 6, flattened to
    `(section, key) -> value` entries; `cfg_put` replaces an existing entry in
    place or appends a missing one, matching `RawConfigParser.set`). -/

abbrev Config : Type := List ((String × String) × String)

/-- Source `cfg_get`: the stored value, or `None` for a missing section/option. -/
def cfg_get (c : Config) (s k : String) : Option String :=
  match c.find? (fun e => e.1 == (s, k)) with
  | some e => some e.2
  | none => none

/-- Source `cfg_put`: set the value, creating the entry when absent. -/
def cfg_put (c : Config) (s k v : String) : Config :=
  if c.any (fun e => e.1 == (s, k)) then
    c.map (fun e => if e.1 == (s, k) then ((s, k), v) else e)
  else c ++ [((s, k), v)]

/-! ## Change planner (`go`) -/

/-- Python truthiness of an optional string (`None` and `""` are falsy). -/
def truthy : Option String → Bool
  | none => false
  | some s => s ≠ ""

/-- Subtree suffix: `repo[len(root):]` when a root is given, else `""`. -/
def subtreeOf (repo root : String) : String :=
  if root ≠ "" then pyDrop repo root.toList.length else ""

/-- Effective peer after the `default` / `elif peer` block of `go`: with `-d`
    the current pull value, else the requested peer extended by the subtree
    when truthy. -/
def effPeer (pull peer0 : Option String) (subtree : String) (dflt : Bool) :
    Option String :=
  if dflt then pull
  else if truthy peer0 then some (peer0.getD "" ++ subtree)
  else peer0

/-- The `if peer: peer = peer.rstrip("/")` step of `go`. -/
def rstripPeer : Option String → Option String
  | p => if truthy p then some (pyRstripSlash (p.getD "")) else p

/-- Push value computed by `go`: a truthy `peer_push` is used verbatim
    (trailing slashes trimmed, never validated), else the push URL is derived
    from the freshly resolved pull URL. -/
def computePush (uiUsername : String) (peer_push0 : Option String) (np : String)
    (gated : Bool) (user : String) : Option String :=
  if truthy peer_push0 then some (pyRstripSlash (peer_push0.getD ""))
  else new_push_url uiUsername np gated user

/-- How one `go` call ended when it did not raise. -/
inductive GoOutcome where
  /-- Display-only invocation: no peer and no push requested. -/
  | displayed
  /-- The dead `if not new_pull: return` guard. -/
  | noPull
  /-- Both values already equal the stored ones: nothing staged. -/
  | noChange
  /-- `cfg_put` ran for both keys: the in-memory config was updated. -/
  | changed
deriving DecidableEq, Repr

/-- Result of one non-raising `go` call: the outcome, the in-memory config
    after the call, and the deferred `todo` entry (`store(c, repo)`) if one
    was appended. -/
structure GoOk where
  outcome : GoOutcome
  cfg : Config
  pending : Option (String × Config)
deriving DecidableEq, Repr

/-- Exceptions escaping `go`. -/
inductive GoError where
  /-- `error.Abort`, caught by `defpath` (walk aborted, nothing flushed). -/
  | abort (msg : String)
  /-- Uncaught `IndexError` from `ps[1]` in `new_push_url`. -/
  | indexError
  /-- Uncaught error from calling `find_repo` on Python `None`
      (reachable only with a `None` peer and a truthy `peer_push`). -/
  | noneTypeError
deriving DecidableEq, Repr

/-- Source `go`: the per-repository change planner.  `dflt` is the source's
    `default` flag (`-d`); `uiUsername` models `ui.config("defpath",
    "username")`; `cfg` is the config loaded from `repo`.  Display calls
    (`show`, `cfg_dump`) have no effect on state and are not modelled. -/
def go (fetch : Fetch) (uiUsername : String) (cfg : Config) (repo root : String)
    (peer0 peer_push0 : Option String) (gated : Bool) (user : String)
    (dry_run : Bool) (secondary : String) (dflt : Bool) : Except GoError GoOk :=
  let pull := cfg_get cfg "paths" "default"
  let push := cfg_get cfg "paths" "default-push"
  if dflt && (truthy peer0 || truthy peer_push0) then
    .error (.abort "Peers cannot be specified together with -d flag")
  else
    let peer2 := rstripPeer (effPeer pull peer0 (subtreeOf repo root) dflt)
    if !truthy peer2 && !truthy peer_push0 then .ok ⟨.displayed, cfg, none⟩
    else
      match peer2 with
      | none => .error .noneTypeError
      | some peerS =>
        match find_repo fetch peerS secondary with
        | .error m => .error (.abort m)
        | .ok np =>
          if np = "" then .ok ⟨.noPull, cfg, none⟩
          else
            match computePush uiUsername peer_push0 np gated user with
            | none => .error .indexError
            | some npush =>
              if pull = some np ∧ push = some npush then .ok ⟨.noChange, cfg, none⟩
              else
                let c2 := cfg_put (cfg_put cfg "paths" "default" np)
                  "paths" "default-push" npush
                .ok ⟨.changed, c2, if dry_run then none else some (repo, c2)⟩

/-! ## Walk and deferred persistence (`defpath`, `todo`, `finish`) -/

/-- All inputs of a walk that are fixed across repositories: the oracle, the
    configured username, the per-directory loaded config, and the CLI
    arguments forwarded by `defpath` to each `go` call. -/
structure Ctx where
  fetch : Fetch
  uiUsername : String
  cfgOf : String → Config
  root : String
  peer0 : Option String
  peer_push0 : Option String
  gated : Bool
  user : String
  dry_run : Bool
  secondary : String
  dflt : Bool

/-- One `go` call of the walk loop, on directory `d`. -/
def goCtx (ctx : Ctx) (d : String) : Except GoError GoOk :=
  go ctx.fetch ctx.uiUsername (ctx.cfgOf d) d ctx.root ctx.peer0 ctx.peer_push0
    ctx.gated ctx.user ctx.dry_run ctx.secondary ctx.dflt

/-- The `for d in walker(repo): go(...)` loop of `defpath`, threading the
    module-level `todo` list of deferred `store(c, repo)` writes; stops at the
    first raised exception, leaving the accumulated queue unflushed. -/
def runWalk (ctx : Ctx) : List String → List (String × Config) →
    Except GoError (List (String × Config))
  | [], todo => .ok todo
  | d :: ds, todo =>
    match goCtx ctx d with
    | .error e => .error e
    | .ok r => runWalk ctx ds (todo ++ r.pending.toList)

/-- Config-file writes actually performed on disk by one `defpath`
    invocation: `finish()` flushes the `todo` queue only when the walk loop
    completed; on any exception (caught `Abort` or a propagating crash)
    nothing is ever written. -/
def defpath_writes (ctx : Ctx) (dirs : List String) : List (String × Config) :=
  match runWalk ctx dirs [] with
  | .ok todo => todo
  | .error _ => []

/-- Exit status of `defpath`: `0` after a full walk and flush, `-1` for a
    caught `Abort` (the `abort: ...` / `No hgrc files updated` path), and the
    propagated exception otherwise. -/
def defpath (ctx : Ctx) (dirs : List String) : Except GoError (Int × List (String × Config)) :=
  match runWalk ctx dirs [] with
  | .ok todo => .ok (0, todo)
  | .error (.abort _) => .ok (-1, [])
  | .error e => .error e

/-! ## Supporting lemmas -/

theorem urlunparse_ssh (nl p : String) : ∃ t, urlunparse ⟨some "ssh", nl, p⟩ = "ssh:" ++ t := by
  refine ⟨if nl ≠ "" ∨ pyTake p 2 = "//" then
    "//" ++ nl ++ (if p ≠ "" ∧ pyTake p 1 ≠ "/" then "/" ++ p else p) else p, ?_⟩
  unfold urlunparse
  split <;> rfl

/-! ## Claim C1 -/

/-- C1, counterexample: with `gated=True` the code appends the gate suffix to
    the second non-empty path segment (`ps[1]`, the casing-determining one)
    and keeps every segment, so pull path `/ws/ABC/clone` yields push path
    `/ws/ABC-GATE/clone`, not the `/ws-GATE/clone` stated by the claim. -/
theorem new_push_url_C1_counterexample :
    new_push_url "" "http://host/ws/ABC/clone" true "bob" =
      some "ssh://bob@host/ws/ABC-GATE/clone" ∧
    new_push_url "" "http://host/ws/ABC/clone" true "bob" ≠
      some "ssh://bob@host/ws-GATE/clone" := by
  decide

/-! ## Claim C10 -/

/-- C10, counterexample: the pull URL `http://h//` has a path (`//`) with no
    non-empty segment at all, yet the gated branch completes without an index
    error (`ps` is `["", ""]`, so `ps[1]` exists and is empty): the claim's
    "fewer than two non-empty segments implies index error" is false. -/
theorem new_push_url_C10_counterexample :
    (pySplitChar '/' (urlparse "http://h//" none).path).filter (fun s => s ≠ "") = [] ∧
    new_push_url "" "http://h//" true "" = some "ssh://h//-gate" := by
  decide

/-! ## Claim C8 -/

/-- C8, counterexample: when neither a username override nor a configured
    default username is present, the derived authority is the pull URL's
    netloc kept verbatim — here `alice@host:8080`, with its embedded username
    and port — not the bare host `host` the claim states. -/
theorem new_push_url_C8_counterexample :
    new_push_url "" "http://alice@host:8080/a" false "" =
      some "ssh://alice@host:8080/a" ∧
    new_push_url "" "http://alice@host:8080/a" false "" ≠ some "ssh://host/a" := by
  decide

/-- C1, amended: for every non-local pull URL whose split path has at least
    two segments after the leading piece, the gated push path keeps the first
    segment unchanged, attaches the gate suffix to the second segment (the
    casing-determining one, `-GATE` when it is entirely uppercase, `-gate`
    otherwise), and re-appends the remaining segments (index 2 onward)
    unchanged; concretely `/ws/ABC/clone` yields `/ws/ABC-GATE/clone` and
    `/ws/abc/clone` yields `/ws/abc-gate/clone`. -/
theorem new_push_url_C1_gated (uiU url user s s0 s1 : String) (rest : List String)
    (hs : (urlparse url none).scheme = some s) (hs0 : s ≠ "") (hsf : s ≠ "file")
    (hps : (pySplitChar '/' (urlparse url none).path).drop 1 = s0 :: s1 :: rest) :
    new_push_url uiU url true user =
      some (urlunparse ⟨some "ssh", pushAuthority uiU (urlparse url none) user,
        "/" ++ s0 ++ "/" ++ s1 ++ (if pyIsUpper s1 then "-GATE" else "-gate") ++
        (if rest ≠ [] then "/" ++ pyJoin "/" rest else "")⟩) ∧
    new_push_url "" "http://host/ws/ABC/clone" true "bob" =
      some "ssh://bob@host/ws/ABC-GATE/clone" ∧
    new_push_url "" "http://host/ws/abc/clone" true "bob" =
      some "ssh://bob@host/ws/abc-gate/clone" := by
  refine ⟨?_, by decide, by decide⟩
  simp only [new_push_url, hs, Option.getD_some]
  rw [if_neg (by simp [hs0, hsf])]
  rw [hps]
  simp only [List.get?_cons_succ, List.get?_cons_zero, List.headD_cons,
    List.length_cons, List.drop_succ_cons, List.drop_zero, if_pos rfl]
  by_cases hr : rest = []
  · subst hr
    norm_num
  · have hlen : 0 < rest.length := List.length_pos.mpr hr
    have h2 : 2 < rest.length + 1 + 1 := by omega
    rw [if_pos h2, if_pos hr]
    exact if_pos trivial

/-- C1, witness: the amended theorem instantiated at the uppercase example. -/
theorem new_push_url_C1_gated_witness :
    new_push_url "" "http://host/ws/ABC/clone" true "bob" =
      some "ssh://bob@host/ws/ABC-GATE/clone" := by
  have h := (new_push_url_C1_gated "" "http://host/ws/ABC/clone" "bob" "http" "ws" "ABC"
    ["clone"] (by decide) (by decide) (by decide) (by decide)).1
  rw [h]
  decide

/-! ## Claim C7 -/

/-- C7: with no username override and no configured default username,
    `derive(http://h/a/b, gated=False)` yields `ssh://h/a/b`; and for every
    non-local pull URL, whenever `new_push_url` returns at all its result
    starts with the `ssh:` scheme, regardless of the pull URL's scheme. -/
theorem new_push_url_C7 :
    new_push_url "" "http://h/a/b" false "" = some "ssh://h/a/b" ∧
    ∀ (uiU url user r : String) (gated : Bool),
      (urlparse url none).scheme.getD "" ≠ "" →
      (urlparse url none).scheme.getD "" ≠ "file" →
      new_push_url uiU url gated user = some r → ∃ t, r = "ssh:" ++ t := by
  refine ⟨by decide, ?_⟩
  intro uiU url user r gated hs hsf h
  simp only [new_push_url] at h
  rw [if_neg (by simp [hs, hsf])] at h
  cases gated with
  | false =>
    rw [if_neg (by simp)] at h
    injection h with h
    obtain ⟨t, ht⟩ := urlunparse_ssh (pushAuthority uiU (urlparse url none) user)
      (urlparse url none).path
    exact ⟨t, by rw [← h]; exact ht⟩
  | true =>
    rw [if_pos rfl] at h
    cases hm : ((pySplitChar '/' (urlparse url none).path).drop 1).get? 1 with
    | none => rw [hm] at h; exact absurd h (by simp)
    | some s1 =>
      rw [hm] at h
      injection h with h
      obtain ⟨t, ht⟩ := urlunparse_ssh (pushAuthority uiU (urlparse url none) user)
        ("/" ++ ((pySplitChar '/' (urlparse url none).path).drop 1).headD "" ++ "/" ++ s1 ++
          (if pyIsUpper s1 then "-GATE" else "-gate") ++
          (if 2 < ((pySplitChar '/' (urlparse url none).path).drop 1).length then
            "/" ++ pyJoin "/" (((pySplitChar '/' (urlparse url none).path).drop 1).drop 2)
          else ""))
      exact ⟨t, by rw [← h]; exact ht⟩

/-- C7, witness: the general part applied to an `https` pull URL. -/
theorem new_push_url_C7_witness : ∃ t, "ssh://h/a/b" = "ssh:" ++ t :=
  new_push_url_C7.2 "" "https://h/a/b" "" "ssh://h/a/b" false (by decide) (by decide)
    (by decide)

/-- C8, amended: for every non-local pull URL, the derived push authority is
    `user@host` (host = netloc stripped of any leading `user@` and trailing
    `:port`) when the override or the configured default username is
    non-empty; otherwise the authority is the pull URL's netloc kept
    verbatim (not reduced to the bare host). -/
theorem new_push_url_C8_authority :
    ∀ (uiU url user r : String) (gated : Bool),
      (urlparse url none).scheme.getD "" ≠ "" →
      (urlparse url none).scheme.getD "" ≠ "file" →
      new_push_url uiU url gated user = some r →
      ∃ p, r = urlunparse ⟨some "ssh",
        (if (if user = "" then uiU else user) ≠ ""
         then (if user = "" then uiU else user) ++ "@" ++ uhostname (urlparse url none)
         else (urlparse url none).netloc), p⟩ := by
  intro uiU url user r gated hs hsf h
  have hpa : pushAuthority uiU (urlparse url none) user =
      (if (if user = "" then uiU else user) ≠ ""
       then (if user = "" then uiU else user) ++ "@" ++ uhostname (urlparse url none)
       else (urlparse url none).netloc) := rfl
  simp only [new_push_url] at h
  rw [if_neg (by simp [hs, hsf])] at h
  cases gated with
  | false =>
    rw [if_neg (by simp)] at h
    injection h with h
    exact ⟨(urlparse url none).path, by rw [← h, hpa]⟩
  | true =>
    rw [if_pos rfl] at h
    cases hm : ((pySplitChar '/' (urlparse url none).path).drop 1).get? 1 with
    | none => rw [hm] at h; exact absurd h (by simp)
    | some s1 =>
      rw [hm] at h
      injection h with h
      refine ⟨"/" ++ ((pySplitChar '/' (urlparse url none).path).drop 1).headD "" ++ "/" ++
        s1 ++ (if pyIsUpper s1 then "-GATE" else "-gate") ++
        (if 2 < ((pySplitChar '/' (urlparse url none).path).drop 1).length then
          "/" ++ pyJoin "/" (((pySplitChar '/' (urlparse url none).path).drop 1).drop 2)
        else ""), ?_⟩
      rw [← h, hpa]

/-- C8, witness: the amended theorem applied with override `bob` to a pull
    URL whose netloc carries both a username and a port. -/
theorem new_push_url_C8_authority_witness :
    ∃ p, "ssh://bob@host/a" = urlunparse ⟨some "ssh",
      (if (if "bob" = "" then "" else "bob") ≠ ""
       then (if "bob" = "" then "" else "bob") ++ "@" ++
         uhostname (urlparse "http://alice@host:8080/a" none)
       else (urlparse "http://alice@host:8080/a" none).netloc), p⟩ :=
  new_push_url_C8_authority "" "http://alice@host:8080/a" "bob" "ssh://bob@host/a" false
    (by decide) (by decide) (by decide)

/-- C10, amended: for a non-local pull URL, the gated branch fails with an
    index error exactly when the split of the path on `/` has fewer than
    three pieces, i.e. fewer than two pieces after the leading one (the path
    contains fewer than two slashes); pieces may be empty, so this is not the
    same as counting non-empty segments. -/
theorem new_push_url_C10_gated (uiU url user : String)
    (hs : (urlparse url none).scheme.getD "" ≠ "")
    (hsf : (urlparse url none).scheme.getD "" ≠ "file") :
    new_push_url uiU url true user = none ↔
      (pySplitChar '/' (urlparse url none).path).length < 3 := by
  simp only [new_push_url]
  rw [if_neg (by simp [hs, hsf]), if_pos trivial]
  cases hm : ((pySplitChar '/' (urlparse url none).path).drop 1).get? 1 with
  | none =>
    have hlen := List.get?_eq_none.mp hm
    rw [List.length_drop] at hlen
    simp only [true_iff]
    omega
  | some s1 =>
    have hlen : 1 < ((pySplitChar '/' (urlparse url none).path).drop 1).length := by
      by_contra hc
      rw [List.get?_eq_none.mpr (by omega)] at hm
      exact Option.noConfusion hm
    rw [List.length_drop] at hlen
    simp only [reduceCtorEq, false_iff]
    omega

/-- C10, witness: path `/a` has a single piece after the leading one, so the
    gated derivation fails (Python would raise `IndexError`). -/
theorem new_push_url_C10_gated_witness :
    new_push_url "" "http://h/a" true "" = none :=
  (new_push_url_C10_gated "" "http://h/a" "" (by decide) (by decide)).mpr (by decide)

/-! ## Parsing lemmas used by the resolver claims -/

theorem splitScheme_slash (p : String) (dflt : Option String)
    (h1 : p.toList.take 1 = ['/']) : splitScheme p dflt = (dflt, p) := by
  cases hl : p.toList with
  | nil => rw [hl] at h1; exact absurd h1 (by decide)
  | cons c cs =>
    rw [hl] at h1
    simp only [List.take_succ_cons, List.take_zero, List.cons.injEq, and_true] at h1
    subst h1
    unfold splitScheme
    rw [hl]
    simp only [colonSplit]
    rw [if_neg (by decide)]
    cases hcs : colonSplit cs with
    | none => rfl
    | some pr => simp [isSchemeChar]

theorem splitNetloc_no_dslash (p : String) (h2 : p.toList.take 2 ≠ ['/', '/']) :
    splitNetloc p = ("", p) := by
  unfold splitNetloc
  rw [if_neg h2]

theorem urlparse_abs_path (p bs : String) (h1 : p.toList.take 1 = ['/'])
    (h2 : p.toList.take 2 ≠ ['/', '/']) : urlparse p (some bs) = ⟨some bs, "", p⟩ := by
  simp [urlparse, splitScheme_slash p (some bs) h1, splitNetloc_no_dslash p h2]

theorem urljoin_abs_path (secondary p bs : String) (hsec : secondary ≠ "")
    (h1 : p.toList.take 1 = ['/']) (h2 : p.toList.take 2 ≠ ['/', '/'])
    (hb : (urlparse secondary (some "")).scheme = some bs)
    (hrel : uses_relative.contains bs = true)
    (hnet : uses_netloc.contains bs = true) :
    urljoin secondary p = urlunparse ⟨some bs, (urlparse secondary (some "")).netloc, p⟩ := by
  have hp : p ≠ "" := by
    intro h
    rw [h] at h1
    exact absurd h1 (by decide)
  have htk : pyTake p 1 = "/" := by
    unfold pyTake
    rw [h1]
    rfl
  have hrel' : bs ∈ uses_relative := by simpa [List.contains] using hrel
  have hnet' : bs ∈ uses_netloc := by simpa [List.contains] using hnet
  simp only [urljoin]
  rw [if_neg hsec, if_neg hp, hb]
  simp only [Option.getD_some]
  rw [urlparse_abs_path p bs h1 h2]
  simp only [Option.getD_some]
  rw [if_neg (by simp [hrel'])]
  rw [if_neg (by simp)]
  rw [if_pos (by simp [hnet'] : (uses_netloc.contains bs : Prop))]
  rw [if_pos htk]

/-! ## Claim C4 -/

/-- C4, amended: for every NON-EMPTY URL whose parse has an absent or empty
    scheme or the scheme `file`, `get_repo_root` returns the URL unchanged,
    `probe_repo` succeeds, and `find_repo` returns the URL unchanged whatever
    the secondary base; the statement is quantified over every network oracle
    `fetch`, so no network access influences these results. -/
theorem local_C4 (fetch : Fetch) (url : String) (hne : url ≠ "")
    (hs : (urlparse url none).scheme.getD "" = "" ∨
      (urlparse url none).scheme.getD "" = "file") :
    get_repo_root fetch url = some url ∧ probe_repo fetch url = true ∧
    ∀ secondary, find_repo fetch url secondary = .ok url := by
  have hg : get_repo_root fetch url = some url := by
    simp only [get_repo_root]
    rw [if_pos hs]
  have hp : probe_repo fetch url = true := by
    simp only [probe_repo, hg]
    simp [hne]
  refine ⟨hg, hp, fun secondary => ?_⟩
  simp only [find_repo]
  rw [if_pos hp]

/-- C4, counterexample: the empty URL has an absent scheme (it parses to
    scheme `None`), yet its probe is falsy (`rr and rr == url` evaluates to
    the falsy `""`) and `find_repo` on it raises `Repository not found`
    instead of succeeding: the claim fails on the empty URL. -/
theorem local_C4_counterexample :
    (urlparse "" none).scheme = none ∧
    probe_repo (fun _ => none) "" = false ∧
    find_repo (fun _ => none) "" "" = .error ": Repository not found" := by
  decide

/-- C4, witness: the amended theorem at a plain local path. -/
theorem local_C4_witness :
    get_repo_root (fun _ => none) "/local/path" = some "/local/path" ∧
    find_repo (fun _ => none) "/local/path" "" = .ok "/local/path" := by
  have h := local_C4 (fun _ => none) "/local/path" (by decide) (Or.inl (by decide))
  exact ⟨h.1, h.2.2 ""⟩

/-! ## Claim C2 -/

/-- C2: when the direct probe of the candidate fails, `find_repo` fails at
    once citing only the candidate when no secondary base was supplied;
    otherwise it builds the fallback `urljoin(secondary, candidate-path)`,
    returns the fallback when its probe succeeds, and raises an error naming
    both tried URLs when it also fails; moreover (third conjunct) for an
    ordinary absolute candidate path and a secondary base with a netloc-using
    scheme, the fallback is exactly the secondary's scheme and authority
    combined with the candidate's path. -/
theorem find_repo_C2 (fetch : Fetch) (url secondary : String)
    (hfail : probe_repo fetch url = false) :
    (secondary = "" → find_repo fetch url secondary =
      .error (url ++ ": Repository not found")) ∧
    (secondary ≠ "" →
      (probe_repo fetch (urljoin secondary (urlparse url (some "http")).path) = true →
        find_repo fetch url secondary =
          .ok (urljoin secondary (urlparse url (some "http")).path)) ∧
      (probe_repo fetch (urljoin secondary (urlparse url (some "http")).path) = false →
        find_repo fetch url secondary =
          .error (url ++ ": Repository not found\n       " ++
            urljoin secondary (urlparse url (some "http")).path ++
            ": Repository not found either"))) ∧
    (∀ bs : String,
      (urlparse url (some "http")).path.toList.take 1 = ['/'] →
      (urlparse url (some "http")).path.toList.take 2 ≠ ['/', '/'] →
      (urlparse secondary (some "")).scheme = some bs →
      uses_relative.contains bs = true → uses_netloc.contains bs = true →
      secondary ≠ "" →
      urljoin secondary (urlparse url (some "http")).path =
        urlunparse ⟨some bs, (urlparse secondary (some "")).netloc,
          (urlparse url (some "http")).path⟩) := by
  refine ⟨?_, ?_, ?_⟩
  · intro hsec
    simp only [find_repo]
    rw [if_neg (by simp [hfail]), if_pos hsec]
  · intro hsec
    constructor
    · intro hp2
      simp only [find_repo]
      rw [if_neg (by simp [hfail]), if_neg hsec, if_pos hp2]
    · intro hp2
      simp only [find_repo]
      rw [if_neg (by simp [hfail]), if_neg hsec, if_neg (by simp [hp2])]
  · intro bs hs1 hs2 hb hrel hnet hsec
    exact urljoin_abs_path secondary _ bs hsec hs1 hs2 hb hrel hnet

/-- C2, witness: with an oracle validating only `http://s/a`, the candidate
    `http://h/a` fails its direct probe, the secondary-derived fallback
    `http://s/a` validates and is returned; with no secondary the resolver
    aborts citing only the candidate. -/
theorem find_repo_C2_witness :
    find_repo (fun u => if u = "http://s/a" then some "/a" else none)
      "http://h/a" "http://s" = .ok "http://s/a" ∧
    find_repo (fun u => if u = "http://s/a" then some "/a" else none)
      "http://h/a" "" = .error "http://h/a: Repository not found" := by
  have h1 := find_repo_C2 (fun u => if u = "http://s/a" then some "/a" else none)
    "http://h/a" "http://s" (by decide)
  have h2 := find_repo_C2 (fun u => if u = "http://s/a" then some "/a" else none)
    "http://h/a" "" (by decide)
  refine ⟨?_, h2.1 rfl⟩
  have h3 := (h1.2.1 (by decide)).1 (by decide)
  rw [h3]
  decide

/-! ## Claim C6 -/

/-- C6: combining the `-d` flag with a requested peer or a requested push
    aborts `go` with the configuration-conflict message; the result is the
    same for every network oracle (so no probe can have been consulted) and,
    being an error, carries no staged change and no config update. -/
theorem go_C6 (fetch : Fetch) (uiU : String) (cfg : Config) (repo root : String)
    (peer0 peer_push0 : Option String) (gated : Bool) (user : String)
    (dry_run : Bool) (secondary : String)
    (h : truthy peer0 = true ∨ truthy peer_push0 = true) :
    go fetch uiU cfg repo root peer0 peer_push0 gated user dry_run secondary true =
      .error (.abort "Peers cannot be specified together with -d flag") := by
  simp only [go]
  rcases h with h | h <;> rw [if_pos (by simp [h])]

/-- C6, witness: the conflict abort at a concrete `-d` plus peer call. -/
theorem go_C6_witness :
    go (fun _ => none) "" [] "r" "r" (some "http://h") none false "" false "" true =
      .error (.abort "Peers cannot be specified together with -d flag") :=
  go_C6 (fun _ => none) "" [] "r" "r" (some "http://h") none false "" false ""
    (Or.inl (by decide))

/-! ## Claim C5 -/

/-- C5, counterexample: in a dry run that computes a change, `cfg_put` IS
    invoked — the returned in-memory config holds the new pair and differs
    from the loaded (empty) one — while only the persist step is skipped
    (`pending = none`); the claim's "put ... never invoked" is false. -/
theorem go_C5_counterexample :
    go (fun u => if u = "http://h/1" then some "/1" else none) "" [] "r" "r"
      (some "http://h/1") none false "" true "" false =
      .ok ⟨.changed,
        [(("paths", "default"), "http://h/1"), (("paths", "default-push"), "ssh://h/1")],
        none⟩ ∧
    cfg_get [(("paths", "default"), "http://h/1"),
        (("paths", "default-push"), "ssh://h/1")] "paths" "default" ≠
      cfg_get ([] : Config) "paths" "default" := by
  decide

/-- C5, amended: whatever a dry run computes, it never stages a pending
    write (`store` is never queued, so the on-disk config stays unchanged);
    when a change was computed, the in-memory config was updated by the two
    `cfg_put` calls. -/
theorem go_C5_dry_run (fetch : Fetch) (uiU : String) (cfg : Config) (repo root : String)
    (peer0 peer_push0 : Option String) (gated : Bool) (user : String)
    (secondary : String) (dflt : Bool) (r : GoOk)
    (h : go fetch uiU cfg repo root peer0 peer_push0 gated user true secondary dflt =
      .ok r) :
    r.pending = none ∧
    (r.outcome = .changed → ∃ np npush,
      r.cfg = cfg_put (cfg_put cfg "paths" "default" np) "paths" "default-push" npush) := by
  simp only [go] at h
  split at h
  · exact absurd h (by simp)
  · split at h
    · injection h with h
      subst h
      exact ⟨rfl, fun hc => absurd hc (by simp)⟩
    · split at h
      · exact absurd h (by simp)
      · split at h
        · exact absurd h (by simp)
        · split at h
          · injection h with h
            subst h
            exact ⟨rfl, fun hc => absurd hc (by simp)⟩
          · split at h
            · exact absurd h (by simp)
            · split at h
              · injection h with h
                subst h
                exact ⟨rfl, fun hc => absurd hc (by simp)⟩
              · injection h with h
                subst h
                exact ⟨by simp, fun _ => ⟨_, _, rfl⟩⟩

/-- C5, witness: the amended theorem at the dry-run scenario above. -/
theorem go_C5_dry_run_witness :
    (⟨GoOutcome.changed,
      [(("paths", "default"), "http://h/1"), (("paths", "default-push"), "ssh://h/1")],
      none⟩ : GoOk).pending = none := by
  have h := go_C5_dry_run (fun u => if u = "http://h/1" then some "/1" else none) "" []
    "r" "r" (some "http://h/1") none false "" "" false
    ⟨.changed,
      [(("paths", "default"), "http://h/1"), (("paths", "default-push"), "ssh://h/1")],
      none⟩ (by decide)
  exact h.1

/-! ## Claim C3 -/

theorem runWalk_append (ctx : Ctx) (ds1 ds2 : List String) (acc : List (String × Config)) :
    runWalk ctx (ds1 ++ ds2) acc =
      match runWalk ctx ds1 acc with
      | .ok t => runWalk ctx ds2 t
      | .error e => .error e := by
  induction ds1 generalizing acc with
  | nil => simp [runWalk]
  | cons d tl ih =>
    simp only [List.cons_append, runWalk]
    cases goCtx ctx d with
    | error e => rfl
    | ok r => exact ih _

/-- C3: writes are deferred into the `todo` queue and flushed only after the
    whole walk succeeded.  If every repository of a prefix resolves (queueing
    the pending changes `t`) and the next repository fails, the whole
    invocation performs zero writes — the already-computed changes in `t` are
    discarded; and whenever the walk does complete, exactly the queued
    changes are written. -/
theorem defpath_C3 (ctx : Ctx) (ds1 : List String) (d : String) (ds2 : List String)
    (t : List (String × Config)) (e : GoError)
    (h1 : runWalk ctx ds1 [] = .ok t) (h2 : goCtx ctx d = .error e) :
    defpath_writes ctx (ds1 ++ d :: ds2) = [] ∧
    ∀ ds w, runWalk ctx ds [] = .ok w → defpath_writes ctx ds = w := by
  have hrw : runWalk ctx (ds1 ++ d :: ds2) [] = .error e := by
    rw [runWalk_append, h1]
    simp only [runWalk, h2]
  constructor
  · unfold defpath_writes
    rw [hrw]
  · intro ds w hw
    unfold defpath_writes
    rw [hw]

/-- Concrete five-repository forest walk: repositories 1 and 2 resolve (the
    oracle validates `http://h/1` and `http://h/2`), repository 3 fails. -/
def ctxC3 : Ctx :=
  ⟨fun u => if u = "http://h/1" then some "/1"
    else if u = "http://h/2" then some "/2" else none,
   "", fun _ => [], "r", some "http://h", none, false, "", false, "", false⟩

/-- C3, witness: in the five-repository walk where repository 3 of 5 fails
    resolution, the computed changes of repositories 1 and 2 are never
    persisted — zero writes happen. -/
theorem defpath_C3_witness :
    defpath_writes ctxC3 ["r/1", "r/2", "r/3", "r/4", "r/5"] = [] :=
  (defpath_C3 ctxC3 ["r/1", "r/2"] "r/3" ["r/4", "r/5"]
    [("r/1", [(("paths", "default"), "http://h/1"),
        (("paths", "default-push"), "ssh://h/1")]),
     ("r/2", [(("paths", "default"), "http://h/2"),
        (("paths", "default-push"), "ssh://h/2")])]
    (.abort "http://h/3: Repository not found") (by decide) (by decide)).1

/-! ## Config-store and resolver lemmas for the idempotence claim -/

theorem find_put_map (s k v : String) (c : Config)
    (hany : c.any (fun e => e.1 == (s, k)) = true) :
    (c.map (fun e => if e.1 == (s, k) then ((s, k), v) else e)).find?
      (fun e => e.1 == (s, k)) = some ((s, k), v) := by
  induction c with
  | nil => simp at hany
  | cons a tl ih =>
    cases hb : a.1 == (s, k) with
    | true =>
      have hhead : (if a.1 == (s, k) then ((s, k), v) else a) = ((s, k), v) := if_pos hb
      rw [List.map_cons, hhead]
      simp [List.find?_cons]
    | false =>
      have hhead : (if a.1 == (s, k) then ((s, k), v) else a) = a :=
        if_neg (by simp [hb])
      rw [List.map_cons, hhead]
      simp only [List.find?_cons, hb]
      apply ih
      simp only [List.any_cons, hb, Bool.false_or] at hany
      exact hany

theorem cfg_get_put_self (c : Config) (s k v : String) :
    cfg_get (cfg_put c s k v) s k = some v := by
  by_cases hany : c.any (fun e => e.1 == (s, k)) = true
  · unfold cfg_put
    rw [if_pos hany]
    unfold cfg_get
    rw [find_put_map s k v c hany]
  · unfold cfg_put
    rw [if_neg hany]
    unfold cfg_get
    rw [List.find?_append]
    have hc : c.find? (fun e => e.1 == (s, k)) = none := by
      rw [List.find?_eq_none]
      intro x hx hpx
      exact hany (List.any_eq_true.mpr ⟨x, hx, hpx⟩)
    rw [hc]
    simp

theorem find_put_map_other (s k s2 k2 v : String) (hne : (s, k) ≠ (s2, k2)) (c : Config) :
    (c.map (fun e => if e.1 == (s2, k2) then ((s2, k2), v) else e)).find?
      (fun e => e.1 == (s, k)) = c.find? (fun e => e.1 == (s, k)) := by
  induction c with
  | nil => rfl
  | cons a tl ih =>
    cases hb : a.1 == (s2, k2) with
    | true =>
      have hhead : (if a.1 == (s2, k2) then ((s2, k2), v) else a) = ((s2, k2), v) :=
        if_pos hb
      have hL : ((((s2, k2), v) : (String × String) × String).1 == (s, k)) = false :=
        beq_eq_false_iff_ne.mpr (Ne.symm hne)
      have hR : (a.1 == (s, k)) = false := by
        have ha : a.1 = (s2, k2) := beq_iff_eq.mp hb
        rw [ha]
        exact beq_eq_false_iff_ne.mpr (Ne.symm hne)
      rw [List.map_cons, hhead]
      simp only [List.find?_cons, hL, hR]
      exact ih
    | false =>
      have hhead : (if a.1 == (s2, k2) then ((s2, k2), v) else a) = a :=
        if_neg (by simp [hb])
      rw [List.map_cons, hhead]
      cases hb2 : a.1 == (s, k) with
      | true => simp only [List.find?_cons, hb2]
      | false =>
        simp only [List.find?_cons, hb2]
        exact ih

theorem cfg_get_put_other (c : Config) (s k s2 k2 v : String)
    (hne : (s, k) ≠ (s2, k2)) : cfg_get (cfg_put c s2 k2 v) s k = cfg_get c s k := by
  by_cases hany : c.any (fun e => e.1 == (s2, k2)) = true
  · unfold cfg_put
    rw [if_pos hany]
    unfold cfg_get
    rw [find_put_map_other s k s2 k2 v hne c]
  · unfold cfg_put
    rw [if_neg hany]
    unfold cfg_get
    rw [List.find?_append]
    have hlast : List.find? (fun e => e.1 == (s, k)) [((s2, k2), v)] = none := by
      simp [Ne.symm hne]
    rw [hlast]
    cases List.find? (fun e => e.1 == (s, k)) c <;> rfl

theorem probe_of_find_repo (fetch : Fetch) (url sec np : String)
    (h : find_repo fetch url sec = .ok np) : probe_repo fetch np = true := by
  simp only [find_repo] at h
  split at h
  · injection h with h
    subst h
    assumption
  · split at h
    · exact absurd h (by simp)
    · split at h
      · injection h with h
        subst h
        assumption
      · exact absurd h (by simp)

theorem find_repo_probed (fetch : Fetch) (np sec : String)
    (h : probe_repo fetch np = true) : find_repo fetch np sec = .ok np := by
  simp only [find_repo]
  rw [if_pos h]

theorem probe_ne_empty (fetch : Fetch) (url : String)
    (h : probe_repo fetch url = true) : url ≠ "" := by
  unfold probe_repo at h
  split at h
  · exact absurd h (by simp)
  · rename_i rr hrr
    simp only [Bool.and_eq_true, bne_iff_ne, ne_eq, beq_iff_eq] at h
    rw [← h.2]
    exact h.1

/-! ## Claim C9 -/

/-- C9, counterexample: idempotence fails when `-d` is used and the resolved
    pull URL carries a trailing slash.  First run: the stored pull
    `http://h` fails its probe, the fallback is the secondary base
    `http://s/a/` verbatim (the candidate path is empty), it validates, and
    `http://s/a/` / `ssh://s/a/` are staged.  Second run with identical
    inputs and the same deterministic oracle: the stored pull is re-used as
    peer but first rstripped to `http://s/a`, which the oracle also
    validates, so the planner stages ANOTHER change (`http://s/a` /
    `ssh://s/a`) instead of a no-op. -/
theorem go_C9_counterexample :
    go (fun u => if u = "http://s/a/" then some "/a/"
        else if u = "http://s/a" then some "/a" else none)
      "" [(("paths", "default"), "http://h")] "r" "r" none none false "" false
      "http://s/a/" true =
      .ok ⟨.changed,
        [(("paths", "default"), "http://s/a/"), (("paths", "default-push"), "ssh://s/a/")],
        some ("r", [(("paths", "default"), "http://s/a/"),
          (("paths", "default-push"), "ssh://s/a/")])⟩ ∧
    go (fun u => if u = "http://s/a/" then some "/a/"
        else if u = "http://s/a" then some "/a" else none)
      "" [(("paths", "default"), "http://s/a/"), (("paths", "default-push"), "ssh://s/a/")]
      "r" "r" none none false "" false "http://s/a/" true =
      .ok ⟨.changed,
        [(("paths", "default"), "http://s/a"), (("paths", "default-push"), "ssh://s/a")],
        some ("r", [(("paths", "default"), "http://s/a"),
          (("paths", "default-push"), "ssh://s/a")])⟩ := by
  decide

/-- C9, amended: running the change planner twice with identical inputs, the
    same deterministic oracle and no other state change yields a no-op on
    the second run (both stored values equal the freshly computed ones, with
    nothing staged) — provided that, when the `-d` flag is in effect, the
    pull value staged by the first run carries no trailing slash; the
    counterexample shows this proviso is necessary, because `-d` re-reads the
    stored pull as peer and rstrips it before resolving. -/
theorem go_C9_idempotent (fetch : Fetch) (uiU : String) (cfg : Config)
    (repo root : String) (peer0 peer_push0 : Option String) (gated : Bool)
    (user : String) (dry_run : Bool) (secondary : String) (dflt : Bool) (r : GoOk)
    (h : go fetch uiU cfg repo root peer0 peer_push0 gated user dry_run secondary dflt =
      .ok r)
    (hch : r.outcome = .changed)
    (hslash : dflt = true → ∀ v, cfg_get r.cfg "paths" "default" = some v →
      pyRstripSlash v = v) :
    go fetch uiU r.cfg repo root peer0 peer_push0 gated user dry_run secondary dflt =
      .ok ⟨.noChange, r.cfg, none⟩ := by
  simp only [go] at h
  split at h
  · exact absurd h (by simp)
  rename_i hc
  split at h
  · injection h with h
    rw [← h] at hch
    exact absurd hch (by simp)
  rename_i hdisp
  split at h
  · exact absurd h (by simp)
  rename_i peerS hP
  split at h
  · exact absurd h (by simp)
  rename_i np hfr
  split at h
  · injection h with h
    rw [← h] at hch
    exact absurd hch (by simp)
  rename_i hnp
  split at h
  · exact absurd h (by simp)
  rename_i npush hcp
  split at h
  · injection h with h
    rw [← h] at hch
    exact absurd hch (by simp)
  rename_i hne
  injection h with h
  have hcfg : r.cfg =
      cfg_put (cfg_put cfg "paths" "default" np) "paths" "default-push" npush := by
    rw [← h]
  have hpull2 : cfg_get
      (cfg_put (cfg_put cfg "paths" "default" np) "paths" "default-push" npush)
      "paths" "default" = some np := by
    rw [cfg_get_put_other (cfg_put cfg "paths" "default" np) "paths" "default"
      "paths" "default-push" npush (by decide)]
    exact cfg_get_put_self cfg "paths" "default" np
  have hpush2 : cfg_get
      (cfg_put (cfg_put cfg "paths" "default" np) "paths" "default-push" npush)
      "paths" "default-push" = some npush :=
    cfg_get_put_self (cfg_put cfg "paths" "default" np) "paths" "default-push" npush
  rw [hcfg]
  cases dflt with
  | false =>
    have hPeq : effPeer (cfg_get
        (cfg_put (cfg_put cfg "paths" "default" np) "paths" "default-push" npush)
        "paths" "default") peer0 (subtreeOf repo root) false =
        effPeer (cfg_get cfg "paths" "default") peer0 (subtreeOf repo root) false := by
      simp [effPeer]
    have hP2 : rstripPeer (effPeer (cfg_get
        (cfg_put (cfg_put cfg "paths" "default" np) "paths" "default-push" npush)
        "paths" "default") peer0 (subtreeOf repo root) false) = some peerS := by
      rw [hPeq]
      exact hP
    have hdisp2 : ¬((!truthy (some peerS) && !truthy peer_push0) = true) := by
      rw [hP] at hdisp
      exact hdisp
    simp only [go]
    rw [if_neg hc]
    simp only [hP2]
    rw [if_neg hdisp2]
    simp only [hfr]
    rw [if_neg hnp]
    simp only [hcp]
    rw [if_pos ⟨hpull2, hpush2⟩]
  | true =>
    have hrs : pyRstripSlash np = np := by
      apply hslash rfl np
      rw [hcfg]
      exact hpull2
    have hP2 : rstripPeer (effPeer (cfg_get
        (cfg_put (cfg_put cfg "paths" "default" np) "paths" "default-push" npush)
        "paths" "default") peer0 (subtreeOf repo root) true) = some np := by
      simp [effPeer, hpull2, rstripPeer, truthy, hnp, hrs]
    have hprobe : probe_repo fetch np = true :=
      probe_of_find_repo fetch peerS secondary np hfr
    have hfr2 : find_repo fetch np secondary = .ok np :=
      find_repo_probed fetch np secondary hprobe
    have hdisp2 : ¬((!truthy (some np) && !truthy peer_push0) = true) := by
      simp [truthy, hnp]
    simp only [go]
    rw [if_neg hc]
    simp only [hP2]
    rw [if_neg hdisp2]
    simp only [hfr2]
    rw [if_neg hnp]
    simp only [hcp]
    rw [if_pos ⟨hpull2, hpush2⟩]

/-- C9, witness: without `-d`, a first run that stages a change is followed
    by a no-op second run on the updated config. -/
theorem go_C9_idempotent_witness :
    go (fun u => if u = "http://h/1" then some "/1" else none) ""
      [(("paths", "default"), "http://h/1"), (("paths", "default-push"), "ssh://h/1")]
      "r" "r" (some "http://h/1") none false "" false "" false =
      .ok ⟨.noChange,
        [(("paths", "default"), "http://h/1"), (("paths", "default-push"), "ssh://h/1")],
        none⟩ :=
  go_C9_idempotent (fun u => if u = "http://h/1" then some "/1" else none) "" [] "r" "r"
    (some "http://h/1") none false "" false "" false
    ⟨.changed,
      [(("paths", "default"), "http://h/1"), (("paths", "default-push"), "ssh://h/1")],
      some ("r", [(("paths", "default"), "http://h/1"),
        (("paths", "default-push"), "ssh://h/1")])⟩
    (by decide) rfl (by simp)

/-- C2, counterexample: with an empty candidate path the fallback probed and
    returned by `find_repo` is the secondary base VERBATIM — its own path
    `/x` retained — not the secondary's scheme and authority combined with
    the candidate's (empty) path, which would be `http://s`. -/
theorem find_repo_C2_counterexample :
    find_repo (fun u => if u = "http://s/x" then some "/x" else none) "http://h"
      "http://s/x" = .ok "http://s/x" ∧
    (urlparse "http://h" (some "http")).path = "" ∧
    urlunparse ⟨some "http", (urlparse "http://s/x" (some "")).netloc,
      (urlparse "http://h" (some "http")).path⟩ = "http://s" ∧
    "http://s/x" ≠ "http://s" := by
  decide

end Defpath
